import Mathlib

/-!
Shallow embedding of the GreenThumb plant-care core (src/greenthumb_gui.py).
Dates are modelled at whole-day precision: a calendar date is a
year/month/day triple, and date comparison and timedelta day arithmetic go
through the proleptic Gregorian day number `Date.toDay`, which matches
Python datetime semantics at day precision.
-/

namespace GreenThumb

/-- Calendar date at whole-day precision, the date part of a Python
datetime value. -/
structure Date where
  year : Nat
  month : Nat
  day : Nat
deriving DecidableEq

/-- Proleptic Gregorian day number of a date (days since 1970-01-01), the
standard civil-from-days computation; Python date ordering and timedelta day
arithmetic agree with integer ordering and addition on this value. -/
def Date.toDay (d : Date) : Int :=
  let y : Int := if d.month ≤ 2 then (d.year : Int) - 1 else (d.year : Int)
  let m : Int := (d.month : Int)
  let era : Int := (if 0 ≤ y then y else y - 399) / 400
  let yoe : Int := y - era * 400
  let mp : Int := (m + 9) % 12
  let doy : Int := (153 * mp + 2) / 5 + (d.day : Int) - 1
  let doe : Int := yoe * 365 + yoe / 4 - yoe / 100 + doy
  era * 146097 + doe - 719468

/-- Gregorian leap-year test, the rule used by Python datetime. -/
def isLeap (y : Nat) : Bool :=
  y % 4 == 0 && (y % 100 != 0 || y % 400 == 0)

/-- Number of days in a month of the Gregorian calendar. -/
def daysInMonth (y m : Nat) : Nat :=
  if m = 2 then (if isLeap y then 29 else 28)
  else if m = 4 ∨ m = 6 ∨ m = 9 ∨ m = 11 then 30
  else 31

/-- Validity of a date triple for Python datetime: year 1..9999, month
1..12, day within the month. Python date construction raises ValueError
outside these ranges. -/
def Date.Valid (d : Date) : Prop :=
  1 ≤ d.year ∧ d.year ≤ 9999 ∧ 1 ≤ d.month ∧ d.month ≤ 12 ∧
    1 ≤ d.day ∧ d.day ≤ daysInMonth d.year d.month

instance (d : Date) : Decidable d.Valid := by
  unfold Date.Valid; infer_instance

/-- Big-endian decimal digit list of a natural number (empty for zero). -/
def digitsBE (n : Nat) : List Nat := (Nat.digits 10 n).reverse

/-- Digit characters of a natural number, big-endian. -/
def digitChars (n : Nat) : List Char := (digitsBE n).map Nat.digitChar

/-- Left-pad a character list to length k with zero characters. -/
def padChars (k : Nat) (l : List Char) : List Char :=
  List.replicate (k - l.length) '0' ++ l

/-- Fixed-width decimal rendering of a natural number, as produced by the
zero-padded strftime fields for month and day. -/
def formatNat (k n : Nat) : List Char := padChars k (digitChars n)

/-- Decimal rendering of the year, as produced by the %Y directive of
platform strftime: no zero padding, so years below 1000 render with fewer
than four digits. -/
def formatYear (y : Nat) : List Char :=
  if y = 0 then ['0'] else digitChars y

/-- Rendering of a date in the program's DATE_FMT (ISO style), as produced
by strftime in Plant.to_dict: unpadded %Y, two-digit zero-padded %m and
%d. -/
def formatDate (d : Date) : String :=
  String.mk (formatYear d.year ++ '-' :: (formatNat 2 d.month ++ '-' :: formatNat 2 d.day))

/-- Numeric value of a run of decimal digit characters. -/
def digitsVal (l : List Char) : Nat :=
  l.foldl (fun a c => 10 * a + (c.toNat - 48)) 0

/-- Split a character list at the end of its leading run of decimal
digits. -/
def digitRun : List Char → List Char × List Char
  | c :: cs =>
    if c.isDigit then
      let p := digitRun cs
      (c :: p.1, p.2)
    else ([], c :: cs)
  | [] => ([], [])

/-- Models datetime.strptime(s, DATE_FMT) as CPython compiles it: %Y
matches exactly four digits, %m one or two digits valued 1..12, %d one or
two digits valued 1..31, joined by literal hyphens with the whole string
consumed; datetime construction then checks the year range and the day
against the month length. On digit runs delimited by hyphens the compiled
regex must consume each whole run, so reading maximal digit runs and
checking their length and value is equivalent. -/
def parseDate (s : String) : Option Date :=
  match digitRun s.data with
  | (yrun, '-' :: r1) =>
    match digitRun r1 with
    | (mrun, '-' :: r2) =>
      match digitRun r2 with
      | (drun, []) =>
        if yrun.length = 4 ∧
            1 ≤ mrun.length ∧ mrun.length ≤ 2 ∧
            1 ≤ digitsVal mrun ∧ digitsVal mrun ≤ 12 ∧
            1 ≤ drun.length ∧ drun.length ≤ 2 ∧
            1 ≤ digitsVal drun ∧ digitsVal drun ≤ 31 ∧
            1 ≤ digitsVal yrun ∧ digitsVal yrun ≤ 9999 ∧
            digitsVal drun ≤ daysInMonth (digitsVal yrun) (digitsVal mrun) then
          some (Date.mk (digitsVal yrun) (digitsVal mrun) (digitsVal drun))
        else none
      | _ => none
    | _ => none
  | _ => none

/-- Embedding of the Plant model (src/greenthumb_gui.py lines 34-104), with
the datetime fields at whole-day precision. -/
structure Plant where
  name : String
  water_interval : Int
  fertilize_interval : Int
  last_watered : Date
  last_fertilized : Date
deriving DecidableEq

/-- Day number of the next watering date: the date part of
last_watered + timedelta(days=water_interval). -/
def Plant.next_water_due (p : Plant) : Int :=
  p.last_watered.toDay + p.water_interval

/-- Day number of the next fertilizing date: the date part of
last_fertilized + timedelta(days=fertilize_interval). -/
def Plant.next_fert_due (p : Plant) : Int :=
  p.last_fertilized.toDay + p.fertilize_interval

/-- Embedding of Plant.needs_care_today with the datetime.now() read
surfaced as the explicit parameter today. -/
def Plant.needs_care_today (p : Plant) (today : Date) : Bool :=
  decide (p.next_water_due ≤ today.toDay) || decide (p.next_fert_due ≤ today.toDay)

/-- JSON scalar values that can appear in a stored plant entry field. -/
inductive JVal where
  | jnull : JVal
  | jint : Int → JVal
  | jstr : String → JVal
deriving DecidableEq

/-- One object of the persisted JSON array, keyed exactly by the Plant
constructor parameters. -/
structure JEntry where
  name : String
  water_interval : JVal
  fertilize_interval : JVal
  last_watered : JVal
  last_fertilized : JVal
deriving DecidableEq

/-- Serialization Plant.to_dict: intervals as JSON integers, dates through
strftime(DATE_FMT). -/
def Plant.to_dict (p : Plant) : JEntry :=
  { name := p.name
    water_interval := JVal.jint p.water_interval
    fertilize_interval := JVal.jint p.fertilize_interval
    last_watered := JVal.jstr (formatDate p.last_watered)
    last_fertilized := JVal.jstr (formatDate p.last_fertilized) }

/-- Models the builtin int() applied to a string: surrounding whitespace
stripped, an optional sign, then a nonempty run of decimal digits; anything
else raises ValueError (none here). -/
def pyInt (s : String) : Option Int :=
  let t := ((s.data.dropWhile Char.isWhitespace).reverse.dropWhile Char.isWhitespace).reverse
  match t with
  | '-' :: ds =>
    if ds ≠ [] ∧ ds.all Char.isDigit then some (-(digitsVal ds : Int)) else none
  | '+' :: ds =>
    if ds ≠ [] ∧ ds.all Char.isDigit then some ((digitsVal ds : Int)) else none
  | ds =>
    if ds ≠ [] ∧ ds.all Char.isDigit then some ((digitsVal ds : Int)) else none

/-- Models int(simpledialog.askstring(...)): a cancelled dialog gives None,
and int(None) raises TypeError, caught by the same handler as ValueError. -/
def pyIntOpt (o : Option String) : Option Int := o.bind pyInt

/-- Models int(v) for a JSON field value: integers pass through, strings are
parsed, null raises TypeError. -/
def pyIntJ : JVal → Option Int
  | JVal.jint n => some n
  | JVal.jstr s => pyInt s
  | JVal.jnull => none

/-- Models the date-or-now logic of the Plant constructor: a falsy value
(None, empty string, integer zero) selects datetime.now(), a nonempty string
goes through strptime, and a truthy non-string raises TypeError. -/
def dateOfJVal (now : Date) : JVal → Option Date
  | JVal.jstr s => if s = "" then some now else parseDate s
  | JVal.jnull => some now
  | JVal.jint n => if n = 0 then some now else none

/-- Construction Plant(**entry) during load: interval fields through int(),
date fields through the strptime-or-now rule; any failure aborts the entry. -/
def Plant.ofEntry (now : Date) (e : JEntry) : Option Plant := do
  let w ← pyIntJ e.water_interval
  let f ← pyIntJ e.fertilize_interval
  let lw ← dateOfJVal now e.last_watered
  let lf ← dateOfJVal now e.last_fertilized
  pure (Plant.mk e.name w f lw lf)

/-- Lowercased character sequence of a string, modelling str.lower(). -/
def strLower (s : String) : List Char := s.data.map Char.toLower

/-- Leading-match test: headMatches l t is true when t is an initial
segment of l. -/
def headMatches : List Char → List Char → Bool
  | _, [] => true
  | [], _ :: _ => false
  | a :: l, b :: t => a == b && headMatches l t

/-- Substring test hasSubstr hay needle, modelling the Python expression
needle in hay on strings. -/
def hasSubstr : List Char → List Char → Bool
  | [], needle => needle.isEmpty
  | a :: l, needle => headMatches (a :: l) needle || hasSubstr l needle

/-- In-memory state of the application core: the plant list and the
filtered view list kept by PlantCareApp. -/
structure AppState where
  plants : List Plant
  filtered_plants : List Plant
deriving DecidableEq

/-- Embedding of PlantCareApp.update_filter: lowercase the search text and
keep the plants whose lowercased name contains it. -/
def update_filter (st : AppState) (search_text : String) : AppState :=
  let term := strLower search_text
  { st with filtered_plants := st.plants.filter (fun p => hasSubstr (strLower p.name) term) }

/-- Embedding of PlantCareApp.add_plant. The three dialog results arrive as
optional strings; a missing or empty name cancels, interval parsing failure
shows an error and leaves the state unchanged, and otherwise a fresh plant
with both last-action dates now is appended and the filtered view reset to
a copy of the full list. -/
def add_plant (st : AppState) (name_in water_in fert_in : Option String) (now : Date) :
    AppState :=
  match name_in with
  | none => st
  | some name =>
    if name = "" then st
    else
      match pyIntOpt water_in, pyIntOpt fert_in with
      | some w, some f =>
        let p : Plant := Plant.mk name w f now now
        { plants := st.plants ++ [p], filtered_plants := st.plants ++ [p] }
      | _, _ => st

/-- Conditional refresh of the two last-action dates, the pair of if
statements in PlantCareApp.update_care. -/
def apply_care (p : Plant) (water fertilize : Bool) (now : Date) : Plant :=
  let p1 := if water then { p with last_watered := now } else p
  if fertilize then { p1 with last_fertilized := now } else p1

/-- Care update at a list position: the in-place mutation of the selected
record, modelled as replacing the record at its index by its updated
value. -/
def update_care_at (l : List Plant) (i : Nat) (water fertilize : Bool) (now : Date) :
    List Plant :=
  match l.get? i with
  | some p => l.set i (apply_care p water fertilize now)
  | none => l

/-- Embedding of PlantCareApp.delete_plant: the record at the selected index
of the filtered view is removed from both lists when the user confirms. -/
def delete_plant (st : AppState) (i : Nat) (confirm : Bool) : AppState :=
  match st.filtered_plants.get? i with
  | some p =>
    if confirm then
      { plants := st.plants.erase p, filtered_plants := st.filtered_plants.erase p }
    else st
  | none => st

/-- Loop body of load_data: entries are parsed in file order and appended
one by one; the first failing entry aborts the loop with the already
appended records kept. -/
def load_loop (now : Date) : List JEntry → List Plant → List Plant × Bool
  | [], acc => (acc, true)
  | e :: es, acc =>
    match Plant.ofEntry now e with
    | some p => load_loop now es (acc ++ [p])
    | none => (acc, false)

/-- Embedding of PlantCareApp.load_data. The file argument is none when no
file exists at the source path, some none when the file is not valid JSON
(json.load raises before any append), and some (some entries) when it
parses to an array of entries. The returned flag is false exactly when the
error branch reports a load error. -/
def load_data (file : Option (Option (List JEntry))) (now : Date) (st : AppState) :
    AppState × Bool :=
  match file with
  | none => ({ st with filtered_plants := st.plants }, true)
  | some none => (st, false)
  | some (some entries) =>
    match load_loop now entries st.plants with
    | (ps, true) => ({ plants := ps, filtered_plants := ps }, true)
    | (ps, false) => ({ st with plants := ps }, false)

/-- Embedding of PlantCareApp.save_data: the JSON array written is the list
of to_dict entries in collection order. -/
def save_data (st : AppState) : List JEntry := st.plants.map Plant.to_dict

/-- Ambient process state visible to a needs_care_today call: the wall
clock read by datetime.now() plus the rest of the application state. -/
structure Env where
  clock : Date
  ui_plants : List Plant
  ui_search : String

/-- Evaluation of Plant.needs_care_today inside an ambient environment: the
body reads only the clock. -/
def needs_care_today_run (env : Env) (p : Plant) : Bool :=
  let today := env.clock
  decide (p.next_water_due ≤ today.toDay) || decide (p.next_fert_due ≤ today.toDay)

/-- Character lists that do not start with a decimal digit, so a digit run
read stops in front of them. -/
def noDigitHead : List Char → Prop
  | [] => True
  | c :: _ => c.isDigit = false

theorem digitChar_isDigit {d : Nat} (h : d < 10) : (Nat.digitChar d).isDigit = true := by
  interval_cases d <;> decide

theorem digitChar_val {d : Nat} (h : d < 10) : (Nat.digitChar d).toNat - 48 = d := by
  interval_cases d <;> decide

theorem digitRun_noDigit {l : List Char} (h : noDigitHead l) :
    digitRun l = ([], l) := by
  cases l with
  | nil => rfl
  | cons c cs =>
    have hc : c.isDigit = false := h
    simp [digitRun, hc]

theorem digitRun_append (D rest : List Char) (hD : ∀ c ∈ D, c.isDigit = true)
    (hrest : noDigitHead rest) : digitRun (D ++ rest) = (D, rest) := by
  induction D with
  | nil => simpa using digitRun_noDigit hrest
  | cons c D ih =>
    have hc : c.isDigit = true := hD c (by simp)
    have hD2 : ∀ x ∈ D, x.isDigit = true := fun x hx => hD x (by simp [hx])
    simp [digitRun, hc, ih hD2]

theorem foldl_digits_eq (L : List Nat) (a : Nat) :
    L.foldl (fun x d => 10 * x + d) a = a * 10 ^ L.length + Nat.ofDigits 10 L.reverse := by
  induction L generalizing a with
  | nil => simp [Nat.ofDigits]
  | cons d L ih =>
    rw [List.foldl_cons, ih, List.reverse_cons, Nat.ofDigits_append]
    simp [Nat.ofDigits_singleton, pow_succ]
    ring

theorem foldl_digitsBE (n : Nat) :
    (digitsBE n).foldl (fun x d => 10 * x + d) 0 = n := by
  rw [foldl_digits_eq]
  simp [digitsBE, Nat.ofDigits_digits]

theorem digitsBE_lt (n : Nat) : ∀ d ∈ digitsBE n, d < 10 := by
  intro d hd
  simp [digitsBE] at hd
  exact Nat.digits_lt_base (by norm_num) hd

theorem formatNat_all_digits (k n : Nat) : ∀ c ∈ formatNat k n, c.isDigit = true := by
  intro c hc
  simp [formatNat, padChars, digitChars] at hc
  rcases hc with ⟨-, rfl⟩ | ⟨d, hd, rfl⟩
  · decide
  · exact digitChar_isDigit (digitsBE_lt n d hd)

theorem digitChars_all_digits (n : Nat) : ∀ c ∈ digitChars n, c.isDigit = true := by
  intro c hc
  simp [digitChars] at hc
  obtain ⟨d, hd, rfl⟩ := hc
  exact digitChar_isDigit (digitsBE_lt n d hd)

theorem digitsVal_digitChars (n : Nat) : digitsVal (digitChars n) = n := by
  have hext : List.foldl (fun a c => 10 * a + (c.toNat - 48)) 0
        ((digitsBE n).map Nat.digitChar) =
      List.foldl (fun a d => 10 * a + d) 0 (digitsBE n) := by
    rw [List.foldl_map]
    exact List.foldl_ext _ _ 0 fun a d hd => by rw [digitChar_val (digitsBE_lt n d hd)]
  unfold digitsVal digitChars
  rw [hext, foldl_digitsBE]

theorem digitsVal_zeros (j : Nat) (l : List Char) :
    digitsVal (List.replicate j '0' ++ l) = digitsVal l := by
  induction j with
  | zero => rfl
  | succ n ih => exact ih

theorem digitsVal_formatNat (k n : Nat) : digitsVal (formatNat k n) = n := by
  unfold formatNat padChars
  rw [digitsVal_zeros]
  exact digitsVal_digitChars n

theorem digitChars_length_four {n : Nat} (h1 : 1000 ≤ n) (h2 : n ≤ 9999) :
    (digitChars n).length = 4 := by
  have hlog : Nat.log 10 n = 3 :=
    Nat.log_eq_of_pow_le_of_lt_pow (by norm_num; omega) (by norm_num; omega)
  have hlen : (Nat.digits 10 n).length = 4 := by
    rw [Nat.digits_len 10 n (by norm_num) (by omega), hlog]
  simp [digitChars, digitsBE, hlen]

theorem digitChars_length_le_two {n : Nat} (h : n ≤ 99) :
    (digitChars n).length ≤ 2 := by
  rcases Nat.eq_zero_or_pos n with rfl | hp
  · simp [digitChars, digitsBE]
  · have hlen : (Nat.digits 10 n).length = Nat.log 10 n + 1 :=
      Nat.digits_len 10 n (by norm_num) (by omega)
    have hlog : Nat.log 10 n < 2 :=
      Nat.log_lt_of_lt_pow (by omega) (by norm_num; omega)
    simp [digitChars, digitsBE, hlen]
    omega

theorem formatNat_two_length {n : Nat} (h : n ≤ 99) : (formatNat 2 n).length = 2 := by
  have hle := digitChars_length_le_two h
  simp [formatNat, padChars]
  omega

theorem daysInMonth_le (y m : Nat) : daysInMonth y m ≤ 31 := by
  unfold daysInMonth
  split
  · split <;> norm_num
  · split <;> norm_num

theorem parseDate_formatDate {d : Date} (h : d.Valid) (hy4 : 1000 ≤ d.year) :
    parseDate (formatDate d) = some d := by
  obtain ⟨hy1, hy2, hm1, hm2, hd1, hd2⟩ := h
  have hnd : ∀ l : List Char, noDigitHead ('-' :: l) := by
    intro l
    show ('-').isDigit = false
    decide
  have hd31 : d.day ≤ 31 := le_trans hd2 (daysInMonth_le d.year d.month)
  have hyc : formatYear d.year = digitChars d.year := by
    have hy0 : d.year ≠ 0 := by omega
    simp [formatYear, hy0]
  have hylen : (digitChars d.year).length = 4 := digitChars_length_four hy4 hy2
  have hmlen : (formatNat 2 d.month).length = 2 := formatNat_two_length (by omega)
  have hdlen : (formatNat 2 d.day).length = 2 := formatNat_two_length (by omega)
  have hry := digitRun_append (digitChars d.year)
      ('-' :: (formatNat 2 d.month ++ '-' :: formatNat 2 d.day))
      (digitChars_all_digits d.year) (hnd _)
  have hrm := digitRun_append (formatNat 2 d.month) ('-' :: formatNat 2 d.day)
      (formatNat_all_digits 2 d.month) (hnd _)
  have hrd := digitRun_append (formatNat 2 d.day) [] (formatNat_all_digits 2 d.day) trivial
  rw [List.append_nil] at hrd
  have hdata : (formatDate d).data =
      digitChars d.year ++ '-' :: (formatNat 2 d.month ++ '-' :: formatNat 2 d.day) := by
    show formatYear d.year ++ '-' :: (formatNat 2 d.month ++ '-' :: formatNat 2 d.day) = _
    rw [hyc]
  rw [parseDate, hdata, hry]
  simp only []
  rw [hrm]
  simp only []
  rw [hrd]
  simp only [digitsVal_digitChars, digitsVal_formatNat, hylen, hmlen, hdlen]
  rw [if_pos ⟨trivial, by omega, by omega, hm1, hm2, by omega, by omega,
    hd1, hd31, hy1, hy2, hd2⟩]

theorem formatDate_ne_empty (d : Date) : formatDate d ≠ "" := by
  intro hcontra
  have hdata : (formatDate d).data = [] := by rw [hcontra]
  simp [formatDate] at hdata

theorem ofEntry_to_dict {p : Plant} (now : Date)
    (h1 : p.last_watered.Valid) (h1y : 1000 ≤ p.last_watered.year)
    (h2 : p.last_fertilized.Valid) (h2y : 1000 ≤ p.last_fertilized.year) :
    Plant.ofEntry now p.to_dict = some p := by
  simp [Plant.ofEntry, Plant.to_dict, pyIntJ, dateOfJVal,
    formatDate_ne_empty, parseDate_formatDate h1 h1y, parseDate_formatDate h2 h2y]

theorem load_loop_eq (now : Date) (es : List JEntry) (acc : List Plant) :
    load_loop now es acc =
      (acc ++ (es.takeWhile fun e => (Plant.ofEntry now e).isSome).filterMap
          (Plant.ofEntry now),
        es.all fun e => (Plant.ofEntry now e).isSome) := by
  induction es generalizing acc with
  | nil => simp [load_loop]
  | cons e es ih =>
    cases he : Plant.ofEntry now e with
    | none => simp [load_loop, he, List.takeWhile_cons, List.all_cons]
    | some p => simp [load_loop, he, ih, List.takeWhile_cons, List.all_cons]

theorem hasSubstr_nil (l : List Char) : hasSubstr l [] = true := by
  cases l <;> simp [hasSubstr, headMatches]

theorem headMatches_iff (t : List Char) : ∀ l : List Char,
    (headMatches l t = true ↔ ∃ r, l = t ++ r) := by
  induction t with
  | nil =>
    intro l
    simp [headMatches]
  | cons b t ih =>
    intro l
    cases l with
    | nil => simp [headMatches]
    | cons a l2 => simp [headMatches, ih l2]

theorem hasSubstr_iff (l t : List Char) :
    hasSubstr l t = true ↔ ∃ u v, l = u ++ t ++ v := by
  induction l with
  | nil =>
    constructor
    · intro hk
      have ht : t = [] := by
        cases t with
        | nil => rfl
        | cons b t2 => simp [hasSubstr] at hk
      subst ht
      exact ⟨[], [], rfl⟩
    · rintro ⟨u, v, huv⟩
      obtain ⟨h1, -⟩ := List.append_eq_nil.1 huv.symm
      obtain ⟨-, ht⟩ := List.append_eq_nil.1 h1
      subst ht
      simp [hasSubstr]
  | cons a l ih =>
    simp only [hasSubstr, Bool.or_eq_true, headMatches_iff, ih]
    constructor
    · rintro (⟨r, hr⟩ | ⟨u, v, huv⟩)
      · exact ⟨[], r, by simpa using hr⟩
      · exact ⟨a :: u, v, by simp [huv]⟩
    · rintro ⟨u, v, huv⟩
      cases u with
      | nil =>
        exact Or.inl ⟨v, by simpa using huv⟩
      | cons c u2 =>
        simp at huv
        exact Or.inr ⟨u2, v, by rw [List.append_assoc]; exact huv.2⟩

theorem set_get?_self {α : Type} (l : List α) (i : Nat) (x : α)
    (h : l.get? i = some x) : l.set i x = l := by
  induction l generalizing i with
  | nil => rfl
  | cons a l ih =>
    cases i with
    | zero =>
      have ha : a = x := by simpa using h
      subst ha
      rfl
    | succ n =>
      have h2 : l.get? n = some x := by simpa using h
      show a :: l.set n x = a :: l
      rw [ih n h2]

/-- C1: needs_care_today is true exactly when the watering or the
fertilizing due date is on or before today; in particular it is false on
the day before one due date while the other is not yet due. -/
theorem needs_care_today_iff_due (p : Plant) (today : Date) :
    (p.needs_care_today today = true ↔
      p.next_water_due ≤ today.toDay ∨ p.next_fert_due ≤ today.toDay) ∧
    (today.toDay + 1 = p.next_water_due → today.toDay < p.next_fert_due →
      p.needs_care_today today = false) ∧
    (today.toDay + 1 = p.next_fert_due → today.toDay < p.next_water_due →
      p.needs_care_today today = false) := by
  refine ⟨?_, ?_, ?_⟩
  · simp [Plant.needs_care_today]
  · intro h1 h2
    simp only [Plant.needs_care_today, Bool.or_eq_false_iff, decide_eq_false_iff_not]
    omega
  · intro h1 h2
    simp only [Plant.needs_care_today, Bool.or_eq_false_iff, decide_eq_false_iff_not]
    omega

/-- Witness instantiating needs_care_today_iff_due: on the day before the
watering due date, with fertilizing not yet due, the record needs no care. -/
theorem needs_care_today_iff_due_witness :
    (Plant.mk "Fern" 3 10 (Date.mk 2024 1 1) (Date.mk 2024 1 1)).needs_care_today
      (Date.mk 2024 1 3) = false :=
  (needs_care_today_iff_due (Plant.mk "Fern" 3 10 (Date.mk 2024 1 1) (Date.mk 2024 1 1))
    (Date.mk 2024 1 3)).2.1 (by decide) (by decide)

/-- C8: next_water_due is the last-watered day plus the water interval, and
next_fert_due is the last-fertilized day plus the fertilize interval. -/
theorem next_due_adds_interval (p : Plant) (d : Date) (w : Int)
    (hlw : p.last_watered = d) (hw : p.water_interval = w) (hpos : 0 < w) :
    p.next_water_due = d.toDay + w ∧
    p.next_fert_due = p.last_fertilized.toDay + p.fertilize_interval := by
  subst hlw
  subst hw
  exact ⟨rfl, rfl⟩

/-- Witness instantiating next_due_adds_interval at a concrete record. -/
theorem next_due_adds_interval_witness :
    (Plant.mk "A" 7 30 (Date.mk 2024 1 1) (Date.mk 2024 2 1)).next_water_due =
      (Date.mk 2024 1 1).toDay + 7 ∧
    (Plant.mk "A" 7 30 (Date.mk 2024 1 1) (Date.mk 2024 2 1)).next_fert_due =
      (Date.mk 2024 2 1).toDay + 30 :=
  next_due_adds_interval (Plant.mk "A" 7 30 (Date.mk 2024 1 1) (Date.mk 2024 2 1))
    (Date.mk 2024 1 1) 7 rfl rfl (by decide)

/-- C9: needs_care_today depends only on the record and the clock date: two
evaluations in environments agreeing on the clock return the same boolean,
and that boolean is the pure two-argument function of record and today. -/
theorem needs_care_today_deterministic (e1 e2 : Env) (p : Plant)
    (h : e1.clock = e2.clock) :
    needs_care_today_run e1 p = needs_care_today_run e2 p ∧
    needs_care_today_run e1 p = p.needs_care_today e1.clock := by
  unfold needs_care_today_run Plant.needs_care_today
  rw [h]
  exact ⟨rfl, rfl⟩

/-- Witness instantiating needs_care_today_deterministic in two
environments that differ everywhere except the clock. -/
theorem needs_care_today_deterministic_witness :
    needs_care_today_run (Env.mk (Date.mk 2024 5 1) [] "")
        (Plant.mk "Ivy" 2 9 (Date.mk 2024 4 29) (Date.mk 2024 4 1)) =
      needs_care_today_run
        (Env.mk (Date.mk 2024 5 1)
          [Plant.mk "Oak" 1 1 (Date.mk 2024 4 1) (Date.mk 2024 4 1)] "search")
        (Plant.mk "Ivy" 2 9 (Date.mk 2024 4 29) (Date.mk 2024 4 1)) :=
  (needs_care_today_deterministic
    (Env.mk (Date.mk 2024 5 1) [] "")
    (Env.mk (Date.mk 2024 5 1)
      [Plant.mk "Oak" 1 1 (Date.mk 2024 4 1) (Date.mk 2024 4 1)] "search")
    (Plant.mk "Ivy" 2 9 (Date.mk 2024 4 29) (Date.mk 2024 4 1)) rfl).1

theorem load_loop_to_dict (now : Date) (ps : List Plant)
    (hval : ∀ p ∈ ps,
      (p.last_watered.Valid ∧ 1000 ≤ p.last_watered.year) ∧
        (p.last_fertilized.Valid ∧ 1000 ≤ p.last_fertilized.year)) :
    ∀ acc, load_loop now (ps.map Plant.to_dict) acc = (acc ++ ps, true) := by
  induction ps with
  | nil => intro acc; simp [load_loop]
  | cons p ps ih =>
    intro acc
    have hp := hval p (by simp)
    have hrest : ∀ q ∈ ps,
        (q.last_watered.Valid ∧ 1000 ≤ q.last_watered.year) ∧
          (q.last_fertilized.Valid ∧ 1000 ≤ q.last_fertilized.year) :=
      fun q hq => hval q (by simp [hq])
    simp only [List.map_cons, load_loop, ofEntry_to_dict now hp.1.1 hp.1.2 hp.2.1 hp.2.2]
    rw [ih hrest (acc ++ [p])]
    simp

/-- C2 amended: saving a collection of records whose dates are valid and
carry four-digit years (1000..9999), then loading the saved file from a
fresh start, reproduces every record's name, intervals and last-action
dates at whole-day precision, in order, without error. For a valid year
below 1000 the round trip fails instead, because the unpadded %Y output is
rejected by the fixed four-digit %Y parse. -/
theorem save_load_round_trip (ps : List Plant) (now : Date)
    (hval : ∀ p ∈ ps,
      (p.last_watered.Valid ∧ 1000 ≤ p.last_watered.year) ∧
        (p.last_fertilized.Valid ∧ 1000 ≤ p.last_fertilized.year)) :
    load_data (some (some (save_data (AppState.mk ps ps)))) now (AppState.mk [] []) =
      (AppState.mk ps ps, true) := by
  simp only [load_data, save_data]
  rw [load_loop_to_dict now ps hval []]
  simp

/-- Witness instantiating save_load_round_trip on a two-record collection. -/
theorem save_load_round_trip_witness :
    load_data
      (some (some (save_data (AppState.mk
        [Plant.mk "Monstera" 7 30 (Date.mk 2024 1 1) (Date.mk 2024 1 5),
          Plant.mk "Fern" 3 10 (Date.mk 2024 2 29) (Date.mk 2024 3 1)]
        [Plant.mk "Monstera" 7 30 (Date.mk 2024 1 1) (Date.mk 2024 1 5),
          Plant.mk "Fern" 3 10 (Date.mk 2024 2 29) (Date.mk 2024 3 1)]))))
      (Date.mk 2025 1 1) (AppState.mk [] []) =
      (AppState.mk
        [Plant.mk "Monstera" 7 30 (Date.mk 2024 1 1) (Date.mk 2024 1 5),
          Plant.mk "Fern" 3 10 (Date.mk 2024 2 29) (Date.mk 2024 3 1)]
        [Plant.mk "Monstera" 7 30 (Date.mk 2024 1 1) (Date.mk 2024 1 5),
          Plant.mk "Fern" 3 10 (Date.mk 2024 2 29) (Date.mk 2024 3 1)], true) :=
  save_load_round_trip
    [Plant.mk "Monstera" 7 30 (Date.mk 2024 1 1) (Date.mk 2024 1 5),
      Plant.mk "Fern" 3 10 (Date.mk 2024 2 29) (Date.mk 2024 3 1)]
    (Date.mk 2025 1 1) (by decide)

theorem digits_ten_one : Nat.digits 10 1 = [1] := by
  rw [Nat.digits_def' (show (1 : Nat) < 10 by norm_num) (show 0 < 1 by norm_num)]
  norm_num

theorem digits_ten_two : Nat.digits 10 2 = [2] := by
  rw [Nat.digits_def' (show (1 : Nat) < 10 by norm_num) (show 0 < 2 by norm_num)]
  norm_num

theorem digits_ten_twentyfour : Nat.digits 10 24 = [4, 2] := by
  rw [Nat.digits_def' (show (1 : Nat) < 10 by norm_num) (show 0 < 24 by norm_num)]
  norm_num [digits_ten_two]

theorem formatDate_year24 : formatDate (Date.mk 24 1 1) = "24-01-01" := by
  simp only [formatDate, formatYear, formatNat, padChars, digitChars, digitsBE,
    digits_ten_twentyfour, digits_ten_one]
  decide

/-- Counterexample to C2 as stated: a record carrying the Python-valid date
0024-01-01 serializes through the unpadded %Y as the string 24-01-01,
which the fixed four-digit %Y parse rejects, so loading the saved file
yields the empty collection and an error instead of reproducing the
record. -/
theorem save_load_small_year_fails :
    (Date.mk 24 1 1).Valid ∧
    load_data
      (some (some (save_data (AppState.mk
        [Plant.mk "Relic" 7 30 (Date.mk 24 1 1) (Date.mk 24 1 1)]
        [Plant.mk "Relic" 7 30 (Date.mk 24 1 1) (Date.mk 24 1 1)]))))
      (Date.mk 2025 1 1) (AppState.mk [] []) = (AppState.mk [] [], false) := by
  constructor
  · decide
  · have hsave : save_data (AppState.mk
        [Plant.mk "Relic" 7 30 (Date.mk 24 1 1) (Date.mk 24 1 1)]
        [Plant.mk "Relic" 7 30 (Date.mk 24 1 1) (Date.mk 24 1 1)]) =
        [JEntry.mk "Relic" (JVal.jint 7) (JVal.jint 30)
          (JVal.jstr "24-01-01") (JVal.jstr "24-01-01")] := by
      simp [save_data, Plant.to_dict, formatDate_year24]
    rw [hsave]
    decide

/-- C5: loading when no file exists at the source path reports no error and
yields the empty collection on a fresh start. -/
theorem load_missing_file_empty (now : Date) (st : AppState) (h : st.plants = []) :
    load_data none now st = (AppState.mk [] [], true) := by
  cases st with
  | mk plants filtered =>
    simp only at h
    subst h
    rfl

/-- Witness instantiating load_missing_file_empty at the startup state. -/
theorem load_missing_file_empty_witness :
    load_data none (Date.mk 2024 7 1) (AppState.mk [] []) = (AppState.mk [] [], true) :=
  load_missing_file_empty (Date.mk 2024 7 1) (AppState.mk [] []) rfl

/-- C6: update_filter keeps exactly the plants whose lowercased name
contains the lowercased search text as a substring, as a subsequence in
collection order, and the empty search text keeps the full collection. -/
theorem update_filter_spec (st : AppState) (term : String) :
    (update_filter st "").filtered_plants = st.plants ∧
    (update_filter st term).plants = st.plants ∧
    (update_filter st term).filtered_plants =
      st.plants.filter (fun p => hasSubstr (strLower p.name) (strLower term)) ∧
    (update_filter st term).filtered_plants.Sublist st.plants ∧
    (∀ p : Plant, p ∈ (update_filter st term).filtered_plants ↔
      p ∈ st.plants ∧ ∃ u v, strLower p.name = u ++ strLower term ++ v) := by
  refine ⟨?_, rfl, rfl, ?_, ?_⟩
  · have hterm : strLower "" = [] := rfl
    simp [update_filter, hterm, hasSubstr_nil]
  · exact List.filter_sublist _
  · intro p
    simp [update_filter, List.mem_filter, hasSubstr_iff]

/-- Witness instantiating the filter characterization of update_filter on a
concrete collection and search text. -/
theorem update_filter_spec_witness :
    (update_filter
      (AppState.mk
        [Plant.mk "Monstera" 7 30 (Date.mk 2024 1 1) (Date.mk 2024 1 1),
          Plant.mk "Fern" 3 10 (Date.mk 2024 1 1) (Date.mk 2024 1 1)] [])
      "ER").filtered_plants =
      (List.filter
        (fun p => hasSubstr (strLower p.name) (strLower "ER"))
        [Plant.mk "Monstera" 7 30 (Date.mk 2024 1 1) (Date.mk 2024 1 1),
          Plant.mk "Fern" 3 10 (Date.mk 2024 1 1) (Date.mk 2024 1 1)]) :=
  (update_filter_spec
    (AppState.mk
      [Plant.mk "Monstera" 7 30 (Date.mk 2024 1 1) (Date.mk 2024 1 1),
        Plant.mk "Fern" 3 10 (Date.mk 2024 1 1) (Date.mk 2024 1 1)] [])
    "ER").2.2.1

/-- C7: a care update at a position refreshes last_watered exactly when the
water flag is set and last_fertilized exactly when the fertilize flag is
set, keeps the other fields of the record and every other record unchanged,
and with both flags clear it is a no-op. -/
theorem update_care_spec (l : List Plant) (i : Nat) (p : Plant)
    (water fertilize : Bool) (now : Date) (h : l.get? i = some p) :
    (update_care_at l i water fertilize now).get? i =
      some (apply_care p water fertilize now) ∧
    (apply_care p water fertilize now).name = p.name ∧
    (apply_care p water fertilize now).water_interval = p.water_interval ∧
    (apply_care p water fertilize now).fertilize_interval = p.fertilize_interval ∧
    (apply_care p water fertilize now).last_watered =
      (if water then now else p.last_watered) ∧
    (apply_care p water fertilize now).last_fertilized =
      (if fertilize then now else p.last_fertilized) ∧
    (∀ j, j ≠ i → (update_care_at l i water fertilize now).get? j = l.get? j) ∧
    (water = false → fertilize = false → update_care_at l i water fertilize now = l) := by
  have hset : update_care_at l i water fertilize now =
      l.set i (apply_care p water fertilize now) := by
    unfold update_care_at
    rw [h]
  obtain ⟨hlt, -⟩ := List.get?_eq_some.1 h
  refine ⟨?_, ?_, ?_, ?_, ?_, ?_, ?_, ?_⟩
  · rw [hset, List.get?_eq_getElem?]
    exact List.getElem?_set_eq_of_lt _ hlt
  · cases water <;> cases fertilize <;> rfl
  · cases water <;> cases fertilize <;> rfl
  · cases water <;> cases fertilize <;> rfl
  · cases water <;> cases fertilize <;> rfl
  · cases water <;> cases fertilize <;> rfl
  · intro j hj
    simp only [hset, List.get?_eq_getElem?]
    exact List.getElem?_set_ne (Ne.symm hj)
  · intro hw hf
    subst hw
    subst hf
    rw [hset]
    exact set_get?_self l i p h

/-- Witness instantiating update_care_spec: watering only, at index 0 of a
two-record list. -/
theorem update_care_spec_witness :
    (update_care_at
      [Plant.mk "Fern" 3 10 (Date.mk 2024 1 1) (Date.mk 2024 1 1),
        Plant.mk "Oak" 9 40 (Date.mk 2024 1 2) (Date.mk 2024 1 2)]
      0 true false (Date.mk 2024 1 4)).get? 0 =
      some (apply_care (Plant.mk "Fern" 3 10 (Date.mk 2024 1 1) (Date.mk 2024 1 1))
        true false (Date.mk 2024 1 4)) ∧
    (apply_care (Plant.mk "Fern" 3 10 (Date.mk 2024 1 1) (Date.mk 2024 1 1))
      true false (Date.mk 2024 1 4)).last_watered =
      (if true then Date.mk 2024 1 4 else Date.mk 2024 1 1) :=
  ⟨(update_care_spec
      [Plant.mk "Fern" 3 10 (Date.mk 2024 1 1) (Date.mk 2024 1 1),
        Plant.mk "Oak" 9 40 (Date.mk 2024 1 2) (Date.mk 2024 1 2)]
      0 (Plant.mk "Fern" 3 10 (Date.mk 2024 1 1) (Date.mk 2024 1 1))
      true false (Date.mk 2024 1 4) rfl).1,
    (update_care_spec
      [Plant.mk "Fern" 3 10 (Date.mk 2024 1 1) (Date.mk 2024 1 1),
        Plant.mk "Oak" 9 40 (Date.mk 2024 1 2) (Date.mk 2024 1 2)]
      0 (Plant.mk "Fern" 3 10 (Date.mk 2024 1 1) (Date.mk 2024 1 1))
      true false (Date.mk 2024 1 4) rfl).2.2.2.2.1⟩

/-- C10: the invariant that the filtered view is a subsequence of the plant
collection is preserved by filter updates, adds, deletes and loads. -/
theorem filtered_sublist_invariant (st : AppState)
    (h : st.filtered_plants.Sublist st.plants) :
    (∀ term : String, (update_filter st term).filtered_plants.Sublist
      (update_filter st term).plants) ∧
    (∀ name_in water_in fert_in now,
      (add_plant st name_in water_in fert_in now).filtered_plants.Sublist
        (add_plant st name_in water_in fert_in now).plants) ∧
    (∀ i confirm, (delete_plant st i confirm).filtered_plants.Sublist
      (delete_plant st i confirm).plants) ∧
    (∀ file now, ((load_data file now st).1).filtered_plants.Sublist
      ((load_data file now st).1).plants) := by
  refine ⟨?_, ?_, ?_, ?_⟩
  · intro term
    exact List.filter_sublist _
  · intro name_in water_in fert_in now
    cases name_in with
    | none => exact h
    | some name =>
      by_cases hn : name = ""
      · simpa [add_plant, hn] using h
      · rcases hw : pyIntOpt water_in with - | w <;>
          rcases hf : pyIntOpt fert_in with - | f <;>
          simp [add_plant, hn, hw, hf] <;>
          exact h
  · intro i confirm
    cases hg : st.filtered_plants.get? i with
    | none =>
      unfold delete_plant
      rw [hg]
      exact h
    | some p =>
      unfold delete_plant
      rw [hg]
      cases confirm with
      | false => simpa using h
      | true => simpa using h.erase p
  · intro file now
    match file with
    | none =>
      simp [load_data]
    | some none =>
      simpa [load_data] using h
    | some (some entries) =>
      have hll := load_loop_eq now entries st.plants
      rcases hok : entries.all fun e => (Plant.ofEntry now e).isSome with - | -
      · rw [hok] at hll
        simp [load_data, hll]
        exact h.trans (List.sublist_append_left _ _)
      · rw [hok] at hll
        simp [load_data, hll]

/-- Witness instantiating filtered_sublist_invariant: a delete through the
filtered view keeps the view a subsequence of the collection. -/
theorem filtered_sublist_invariant_witness :
    (delete_plant
      (AppState.mk
        [Plant.mk "Aloe" 2 20 (Date.mk 2024 1 1) (Date.mk 2024 1 1),
          Plant.mk "Fern" 3 10 (Date.mk 2024 1 1) (Date.mk 2024 1 1)]
        [Plant.mk "Fern" 3 10 (Date.mk 2024 1 1) (Date.mk 2024 1 1)])
      0 true).filtered_plants.Sublist
      (delete_plant
        (AppState.mk
          [Plant.mk "Aloe" 2 20 (Date.mk 2024 1 1) (Date.mk 2024 1 1),
            Plant.mk "Fern" 3 10 (Date.mk 2024 1 1) (Date.mk 2024 1 1)]
          [Plant.mk "Fern" 3 10 (Date.mk 2024 1 1) (Date.mk 2024 1 1)])
        0 true).plants :=
  ((filtered_sublist_invariant
    (AppState.mk
      [Plant.mk "Aloe" 2 20 (Date.mk 2024 1 1) (Date.mk 2024 1 1),
        Plant.mk "Fern" 3 10 (Date.mk 2024 1 1) (Date.mk 2024 1 1)]
      [Plant.mk "Fern" 3 10 (Date.mk 2024 1 1) (Date.mk 2024 1 1)])
    ((List.Sublist.refl _).cons _)).2.2.1) 0 true

/-- C3 amended: add_plant rejects the input and leaves the state unchanged
exactly when an interval input fails integer parsing or a dialog is
cancelled; for any parseable integer intervals, positive or not, it appends
a record with both last-action dates set to the current date. -/
theorem add_plant_parse_spec (st : AppState) (name : String)
    (water_in fert_in : Option String) (now : Date) (w f : Int)
    (hname : name ≠ "") :
    ((pyIntOpt water_in = none ∨ pyIntOpt fert_in = none) →
      add_plant st (some name) water_in fert_in now = st) ∧
    (pyIntOpt water_in = some w → pyIntOpt fert_in = some f →
      add_plant st (some name) water_in fert_in now =
        AppState.mk (st.plants ++ [Plant.mk name w f now now])
          (st.plants ++ [Plant.mk name w f now now])) := by
  constructor
  · rintro (hw | hf)
    · simp [add_plant, hname, hw]
    · rcases hw : pyIntOpt water_in with - | w2 <;> simp [add_plant, hname, hw, hf]
  · intro hw hf
    simp [add_plant, hname, hw, hf]

/-- Witness instantiating add_plant_parse_spec: a non-numeric interval is
rejected, and the integer interval 2 is accepted. -/
theorem add_plant_parse_spec_witness :
    add_plant (AppState.mk [] []) (some "Fern") (some "abc") (some "7")
      (Date.mk 2024 3 1) = AppState.mk [] [] ∧
    add_plant (AppState.mk [] []) (some "Fern") (some "2") (some "5")
      (Date.mk 2024 3 1) =
      AppState.mk [Plant.mk "Fern" 2 5 (Date.mk 2024 3 1) (Date.mk 2024 3 1)]
        [Plant.mk "Fern" 2 5 (Date.mk 2024 3 1) (Date.mk 2024 3 1)] :=
  ⟨(add_plant_parse_spec (AppState.mk [] []) "Fern" (some "abc") (some "7")
      (Date.mk 2024 3 1) 0 0 (by decide)).1 (Or.inl (by decide)),
    (add_plant_parse_spec (AppState.mk [] []) "Fern" (some "2") (some "5")
      (Date.mk 2024 3 1) 2 5 (by decide)).2 (by decide) (by decide)⟩

/-- Counterexample to C3 as stated: an add whose water interval input is 0,
not a positive integer, is not rejected; the record is appended with
water_interval 0. -/
theorem add_plant_zero_interval_added :
    add_plant (AppState.mk [] []) (some "Fern") (some "0") (some "7")
      (Date.mk 2024 3 1) =
      AppState.mk [Plant.mk "Fern" 0 7 (Date.mk 2024 3 1) (Date.mk 2024 3 1)]
        [Plant.mk "Fern" 0 7 (Date.mk 2024 3 1) (Date.mk 2024 3 1)] := by
  decide

/-- C4 amended: a load failing in JSON parsing leaves the state unchanged
(so the collection stays empty only on a fresh start), while a load failing
at some entry keeps exactly the records built from the longest parseable
run of leading entries and leaves the filtered view untouched. -/
theorem load_failure_keeps_parsed_run (st : AppState) (now : Date)
    (entries : List JEntry)
    (hfail : (entries.all fun e => (Plant.ofEntry now e).isSome) = false) :
    load_data (some none) now st = (st, false) ∧
    load_data (some (some entries)) now st =
      (AppState.mk
        (st.plants ++
          (entries.takeWhile fun e => (Plant.ofEntry now e).isSome).filterMap
            (Plant.ofEntry now))
        st.filtered_plants, false) := by
  constructor
  · rfl
  · have hll := load_loop_eq now entries st.plants
    rw [hfail] at hll
    simp [load_data, hll]

/-- Witness instantiating load_failure_keeps_parsed_run on a file whose
second entry has a non-numeric interval. -/
theorem load_failure_keeps_parsed_run_witness :
    load_data (some (some
      [JEntry.mk "Aloe" (JVal.jint 3) (JVal.jint 14)
          (JVal.jstr "2024-01-02") (JVal.jstr "2024-01-03"),
        JEntry.mk "Bad" (JVal.jstr "abc") (JVal.jint 9)
          (JVal.jstr "2024-01-02") (JVal.jstr "2024-01-03")]))
      (Date.mk 2024 6 1) (AppState.mk [] []) =
      (AppState.mk
        (([] : List Plant) ++
          (([JEntry.mk "Aloe" (JVal.jint 3) (JVal.jint 14)
              (JVal.jstr "2024-01-02") (JVal.jstr "2024-01-03"),
            JEntry.mk "Bad" (JVal.jstr "abc") (JVal.jint 9)
              (JVal.jstr "2024-01-02") (JVal.jstr "2024-01-03")].takeWhile
            fun e => (Plant.ofEntry (Date.mk 2024 6 1) e).isSome).filterMap
              (Plant.ofEntry (Date.mk 2024 6 1))))
        [], false) :=
  (load_failure_keeps_parsed_run (AppState.mk [] []) (Date.mk 2024 6 1)
    [JEntry.mk "Aloe" (JVal.jint 3) (JVal.jint 14)
        (JVal.jstr "2024-01-02") (JVal.jstr "2024-01-03"),
      JEntry.mk "Bad" (JVal.jstr "abc") (JVal.jint 9)
        (JVal.jstr "2024-01-02") (JVal.jstr "2024-01-03")] (by decide)).2

/-- Counterexample to C4 as stated: a file whose second entry has a
non-numeric interval makes load fail, yet the record built from the first
entry remains, so the resulting collection is not empty. -/
theorem load_failure_not_empty :
    (load_data (some (some
      [JEntry.mk "Aloe" (JVal.jint 3) (JVal.jint 14)
          (JVal.jstr "2024-01-02") (JVal.jstr "2024-01-03"),
        JEntry.mk "Bad" (JVal.jstr "abc") (JVal.jint 9)
          (JVal.jstr "2024-01-02") (JVal.jstr "2024-01-03")]))
      (Date.mk 2024 6 1) (AppState.mk [] [])).2 = false ∧
    (load_data (some (some
      [JEntry.mk "Aloe" (JVal.jint 3) (JVal.jint 14)
          (JVal.jstr "2024-01-02") (JVal.jstr "2024-01-03"),
        JEntry.mk "Bad" (JVal.jstr "abc") (JVal.jint 9)
          (JVal.jstr "2024-01-02") (JVal.jstr "2024-01-03")]))
      (Date.mk 2024 6 1) (AppState.mk [] [])).1.plants =
      [Plant.mk "Aloe" 3 14 (Date.mk 2024 1 2) (Date.mk 2024 1 3)] := by
  constructor
  · decide
  · decide

end GreenThumb
